import Mathlib

set_option maxRecDepth 100000

/-!
Verification of the ras pipeline (src/main.rs) against its specification.

The Rust source is shallowly embedded: pure string manipulation is
translated directly, and the effectful parts (HTTP calls, the PDF
extraction worker thread, the filesystem) are modelled by explicit
environments describing what each external call would return, with the
control flow of the Rust functions translated faithfully over those
environments.  Machine integers (`u64` sizes, `u16` HTTP statuses) are
modelled as `Nat`; the values involved never approach the wrap-around
points of the original types.
-/

/-! ### Character predicates (from `SANITIZE_REGEX` and Rust `str::trim`)

`SANITIZE_REGEX` in main.rs line 17 matches the single characters
less-than, greater-than, colon, double quote, forward slash, backslash,
pipe, question mark, asterisk, and the control range U+0000 to U+001F.
The code points below are exactly those characters. -/
def isIllegalChar (c : Char) : Bool :=
  let n := c.toNat
  n == 60 || n == 62 || n == 58 || n == 34 || n == 47 ||
    n == 92 || n == 124 || n == 63 || n == 42 || decide (n ≤ 31)

/-- Rust `char::is_whitespace`: the Unicode White_Space code points. -/
def rustIsWhitespace (c : Char) : Bool :=
  let n := c.toNat
  (decide (9 ≤ n) && decide (n ≤ 13)) || n == 32 || n == 133 || n == 160 ||
    n == 5760 || (decide (8192 ≤ n) && decide (n ≤ 8202)) ||
    n == 8232 || n == 8233 || n == 8239 || n == 8287 || n == 12288

/-- One step of `SANITIZE_REGEX.replace_all(name, "_")`: every regex match
is a single character, so the replacement is a character-wise map. -/
def sanitizeChar (c : Char) : Char :=
  if isIllegalChar c then '_' else c

def sanitizeChars (l : List Char) : List Char :=
  l.map sanitizeChar

/-- Rust `str::trim`: drop Unicode whitespace from both ends. -/
def trimChars (l : List Char) : List Char :=
  (((l.dropWhile rustIsWhitespace).reverse).dropWhile rustIsWhitespace).reverse

/-- The final truncation step of `sanitize_filename` (main.rs 215-219):
if the character count exceeds 200, keep the first 200 code points. -/
def truncateChars (l : List Char) : List Char :=
  if l.length > 200 then l.take 200 else l

/-- main.rs 212-220: regex replacement, then `trim`, then truncation to
200 code points. -/
def sanitize_filename (s : String) : String :=
  ⟨truncateChars (trimChars (sanitizeChars s.data))⟩

/-- Two character lists agree position-wise except that at some positions
both sides hold characters matched by `SANITIZE_REGEX`. -/
def differOnlyIllegal : List Char → List Char → Bool
  | [], [] => true
  | c :: s, d :: t =>
      (c == d || (isIllegalChar c && isIllegalChar d)) && differOnlyIllegal s t
  | _, _ => false

example : sanitize_filename ⟨['a', '<', 'b']⟩ = sanitize_filename ⟨['a', '*', 'b']⟩ := by decide
example : sanitize_filename ⟨[' ', 'a', ' ']⟩ = ⟨['a']⟩ := by decide
example : (sanitize_filename ⟨List.replicate 201 'a'⟩).data.length = 200 := by decide

/-! ### Data model (main.rs 20-53) -/

structure Paper where
  id : String
  title : String
  pdf_url : String
deriving DecidableEq

/-! ### Summarization client (main.rs 373-467, `generate_summary`)

A single HTTP interaction of the retry loop is modelled by `HttpAttempt`:
either the `send()` call fails (a reqwest transport error), the body read
`response.text()` fails, or a response with a status code and a body
arrives.  The `parsed` component records what `serde_json::from_str`
would produce on that body: `serde_json` is an external library, so its
verdict on the body is part of the environment rather than recomputed. -/
deriving instance DecidableEq for Except

inductive HttpAttempt where
  | transportErr (e : String)
  | bodyReadErr (e : String)
  | http (status : Nat) (body : String) (parsed : Except String (List String))
deriving DecidableEq

/-- What one iteration of the retry loop decides: return a summary,
return an error immediately, or record `last_error` and continue. -/
inductive AttemptStep where
  | success (choice0 : String)
  | terminal (e : String)
  | retry (e : String)
deriving DecidableEq

def AttemptStep.isRetry : AttemptStep → Bool
  | .retry _ => true
  | _ => false

/-- main.rs 439 and 444: the Display form of the error is modelled with
the numeric status code. -/
def apiErrMsg (status : Nat) (body : String) : String :=
  "API error " ++ toString status ++ ": " ++ body

/-- main.rs 450. -/
def parseErrMsg (e body : String) : String :=
  "Parse error: " ++ e ++ " - Body: " ++ body

def noResponseMsg : String := "No response from API"

/-- main.rs 467. -/
def failMsg (maxRetries : Nat) (lastError : String) : String :=
  "Failed after " ++ toString maxRetries ++ " retries: " ++ lastError

/-- The branch structure of one iteration of the loop at main.rs 411-465:
transport errors and body-read errors `continue`; status 429 or at least
500 sets `last_error` and continues; any other non-2xx status returns
immediately; a body that does not parse sets `last_error` and continues;
a parsed response with no choices returns immediately; otherwise the
first choice is the summary content. -/
def classifyAttempt : HttpAttempt → AttemptStep
  | .transportErr e => .retry e
  | .bodyReadErr e => .retry e
  | .http status body parsed =>
      if status == 429 || decide (500 ≤ status) then
        .retry (apiErrMsg status body)
      else if !(decide (200 ≤ status) && decide (status ≤ 299)) then
        .terminal (apiErrMsg status body)
      else
        match parsed with
        | .error e => .retry (parseErrMsg e body)
        | .ok [] => .terminal noResponseMsg
        | .ok (c :: _) => .success c

/-- main.rs 460-463: the persisted document layout. -/
def formatSummary (p : Paper) (content : String) : String :=
  "# " ++ p.title ++ "\n\n**arXiv ID**: " ++ p.id ++ "\n**PDF**: " ++
    p.pdf_url ++ "\n\n---\n\n" ++ content

/-- main.rs 374-378: keep at most the first 50000 code points. -/
def truncate50k (t : String) : String :=
  if t.data.length > 50000 then ⟨t.data.take 50000⟩ else t

/-- The prompt text of main.rs 380-397 before the embedded paper text. -/
def promptPrefix (p : Paper) : String :=
  "Please provide a comprehensive, evidence-based summary of the following academic paper based on the provided text.\n        Title: " ++
    p.title ++ "\n        arXiv ID: " ++ p.id ++ "\n        PDF URL: " ++
    p.pdf_url ++ "\n\n        Paper Content:\n        "

/-- The prompt text of main.rs 380-397 after the embedded paper text. -/
def promptSuffix : String :=
  "\n\n        Please analyze the text provided and structure your summary using the following specific sections:\n        1. **Overview**: A concise description of the paper\x27s core mission, what it introduces (e.g., specific benchmarks, datasets, or models), and its primary goal.\n        2. **Key Results**: detailed quantitative findings. Do not be vague. Extract specific metrics, leaderboard rankings, scores (e.g., \x22Model X scored 56.1%\x22), and domain-specific performance comparisons.\n        3. **Methodology**: Explain the specific approach used. Detail the dataset composition (e.g., number of test cases, expert sources) and the evaluation/grading process (e.g., \x22hurdle criteria,\x22 \x22grounding checks,\x22 or specific algorithms).\n        4. **Critical Insights**: Discuss the nuances, limitations, or specific behaviors observed in the study. Look for failure modes (e.g., hallucinations), performance gaps between domains, or qualitative observations made by the authors.\n\n        **Constraint:** Do not hallucinate. Base the summary *strictly* on the provided text context."

def buildPrompt (p : Paper) (truncated : String) : String :=
  promptPrefix p ++ truncated ++ promptSuffix

/-- main.rs 399-406: the request assembled once, before the retry loop. -/
structure OpenAIRequest where
  model : String
  content : String
  max_completion_tokens : Nat
deriving DecidableEq

def requestOf (p : Paper) (text : String) : OpenAIRequest :=
  ⟨"gpt-4o-mini", buildPrompt p (truncate50k text), 2000⟩

/-- Result of `generate_summary` together with observable retry data:
the request that every attempt submits, the sleeps performed (in
milliseconds, in order), and how many attempts were made. -/
structure GenResult where
  request : OpenAIRequest
  result : Except String String
  sleeps : List Nat
  attemptsMade : Nat

/-- The loop `for attempt in 0..max_retries` of main.rs 411-465.
`remaining` counts iterations left, `idx` is the `attempt` variable, and
`lastError` is the mutable `last_error`.  The environment `env` gives the
HTTP interaction each iteration would experience.  Returns the result,
the list of sleeps performed, and the number of attempts made. -/
def summaryLoop (p : Paper) (env : Nat → HttpAttempt) (maxRetries : Nat) :
    Nat → Nat → String → Except String String × List Nat × Nat
  | 0, _, lastError => (.error (failMsg maxRetries lastError), [], 0)
  | remaining + 1, idx, _ =>
      let sl : List Nat := if 0 < idx then [500 * (idx + 1)] else []
      match classifyAttempt (env idx) with
      | .success c => (.ok (formatSummary p c), sl, 1)
      | .terminal e => (.error e, sl, 1)
      | .retry e =>
          let r := summaryLoop p env maxRetries remaining (idx + 1) e
          (r.1, sl ++ r.2.1, r.2.2 + 1)

/-- main.rs 373-467: prompt truncation and request construction happen
before the loop; then up to `max_retries = 3` attempts. -/
def generate_summary (p : Paper) (text : String) (env : Nat → HttpAttempt) :
    GenResult :=
  let req := requestOf p text
  let r := summaryLoop p env 3 3 0 ""
  ⟨req, r.1, r.2.1, r.2.2⟩

example :
    (generate_summary ⟨"1", "T", "u"⟩ "txt"
      (fun _ => .http 500 "oops" (.ok []))).result =
    .error "Failed after 3 retries: API error 500: oops" := by decide

example :
    (generate_summary ⟨"1", "T", "u"⟩ "txt"
      (fun i => if i < 2 then .http 429 "slow" (.ok [])
                else .http 200 "b" (.ok ["S"]))).attemptsMade = 3 := by decide

/-! ### Extraction sandbox (main.rs 330-363, `extract_text_silent`)

The worker thread redirects the process stdout and stderr to /dev/null,
runs `extract_text` under `catch_unwind`, restores both streams, and
sends the caught result over a channel; the caller blocks on
`recv_timeout` for 120 seconds.  The behavior of the external
`extract_text` call is the environment: it can return `Ok` text or an
`Err`, it can panic, and each of those can happen before or only after
the 120 second deadline, or the call can hang forever. -/

inductive CallResult where
  | ok (text : String)
  | err (msg : String)
  | panicked
deriving DecidableEq

inductive ExtractBehavior where
  /-- the `extract_text` call finishes within the 120 s deadline -/
  | within (r : CallResult)
  /-- the call finishes, but only after the deadline has elapsed -/
  | late (r : CallResult)
  /-- the call never finishes -/
  | never
deriving DecidableEq

/-- main.rs 357: `rx.recv_timeout(Duration::from_secs(120))`. -/
def extractTimeoutSecs : Nat := 120

/-- The match at main.rs 357-362.  A result only arrives on the channel
within the deadline when the call completed within the deadline; in the
`late` and `never` cases `recv_timeout` returns `Err` and the caller
reports a timeout. -/
def extract_text_silent : ExtractBehavior → Except String String
  | .within (.ok t) => .ok t
  | .within (.err e) => .error e
  | .within .panicked => .error "PDF extraction panicked"
  | .late _ => .error "PDF extraction timed out"
  | .never => .error "PDF extraction timed out"

/-- Observable steps of the worker thread body (main.rs 334-355), in
program order: redirect fds 1 and 2 to /dev/null, finish the
`catch_unwind`-wrapped call, restore both fds, send the result. -/
inductive WEvent where
  | redirect
  | callEnd
  | restore
  | send
deriving DecidableEq

/-- Every event the worker thread ever executes.  The restore at
main.rs 348-349 is reached exactly when the extraction call completes
(normally or by caught panic); a hanging call never reaches it. -/
def workerEventualTrace : ExtractBehavior → List WEvent
  | .within _ => [.redirect, .callEnd, .restore, .send]
  | .late _ => [.redirect, .callEnd, .restore, .send]
  | .never => [.redirect]

/-- The worker events already executed at the moment
`extract_text_silent` returns to its caller.  When the call completes
within the deadline the send at main.rs 353 follows the restore, so the
whole trace precedes the return; when `recv_timeout` times out the
worker is still inside the extraction call, after the redirect and
before the restore. -/
def workerEventsAtReturn : ExtractBehavior → List WEvent
  | .within _ => [.redirect, .callEnd, .restore, .send]
  | .late _ => [.redirect]
  | .never => [.redirect]

/-! ### Pipeline orchestrator (main.rs 141-195, `process_paper`) -/

/-- Terminal per-item states, one per return point of `process_paper`. -/
inductive ProcessingOutcome where
  | downloadFailed (e : String)
  | corruptDownload
  | extractionFailed (e : String)
  | emptyText
  | summarizationFailed (e : String)
  | completed
deriving DecidableEq

/-- Externally visible actions of one `process_paper` run. -/
inductive Effect where
  | downloaded
  | removedPdf
  | extractCalled
  | summarizeCalled
  | wroteArtifact (name content : String)
deriving DecidableEq

/-- Environment of one item: whether the PDF is already cached
(main.rs 147), what `download_pdf` would return, what `fs::metadata`
would report for the file length, how the extraction call behaves and
what the summarization endpoint answers on each attempt. -/
structure ItemEnv where
  cached : Bool
  download : Except String Unit
  sizeOf : Option Nat
  extraction : ExtractBehavior
  attempts : Nat → HttpAttempt

def sfxSM : String := "-summary.md"

def artifactName (p : Paper) : String :=
  sanitize_filename p.title ++ sfxSM

/-- main.rs 141-195, stage by stage: download unless cached (return on
failure), delete and return if the file length is reported below 1000,
extract (return on error or on whitespace-only text), summarize (return
on failure), write the artifact. -/
def process_paper (paper : Paper) (env : ItemEnv) :
    ProcessingOutcome × List Effect :=
  let dl : Except String (List Effect) :=
    if env.cached then .ok []
    else
      match env.download with
      | .ok _ => .ok [.downloaded]
      | .error e => .error e
  match dl with
  | .error e => (.downloadFailed e, [])
  | .ok eff0 =>
      let gateFails :=
        match env.sizeOf with
        | some n => decide (n < 1000)
        | none => false
      if gateFails then (.corruptDownload, eff0 ++ [.removedPdf])
      else
        let eff1 := eff0 ++ [.extractCalled]
        match extract_text_silent env.extraction with
        | .error e => (.extractionFailed e, eff1)
        | .ok text =>
            if trimChars text.data = [] then (.emptyText, eff1)
            else
              let g := generate_summary paper text env.attempts
              match g.result with
              | .ok summary =>
                  (.completed,
                    eff1 ++ [.summarizeCalled,
                      .wroteArtifact (artifactName paper) summary])
              | .error e => (.summarizationFailed e, eff1 ++ [.summarizeCalled])

/-! ### Idempotency filter (main.rs 197-210 and 96-99) -/

/-- Rust `str::trim_end_matches("-summary.md")`: repeatedly remove the
suffix while it matches.  Each removal strips 11 characters, so
`l.length` steps of fuel always suffice. -/
def trimEndLoop : Nat → List Char → List Char
  | 0, s => s
  | fuel + 1, s =>
      if sfxSM.data.isSuffixOf s then
        trimEndLoop fuel (s.take (s.length - sfxSM.data.length))
      else s

def trimEndMatchesSM (s : List Char) : List Char :=
  trimEndLoop s.length s

/-- main.rs 197-210: from a directory listing, keep the names ending in
"-summary.md" and strip that suffix repeatedly. -/
def get_existing_summaries (names : List String) : List String :=
  (names.filter (fun n => sfxSM.data.isSuffixOf n.data)).map
    (fun n => ⟨trimEndMatchesSM n.data⟩)

/-- main.rs 96-99: keep the papers whose sanitized title is not among
the existing summaries. -/
def papersToProcess (existing : List String) (papers : List Paper) :
    List Paper :=
  papers.filter (fun p => !(existing.contains (sanitize_filename p.title)))

example :
    get_existing_summaries ["a-summary.md", "b.txt", "c-summary.md"] =
      ["a", "c"] := by decide
example :
    get_existing_summaries ["x-summary.md-summary.md"] = ["x"] := by decide

/-! ### Sequential artifact-store model (for the duplicate-key claim)

`fs::write` creates the file or truncates an existing one, so a write to
an existing name replaces its content. -/

def fsSet (fs : List (String × String)) (name content : String) :
    List (String × String) :=
  fs.filter (fun kv => kv.1 != name) ++ [(name, content)]

def fsGet (fs : List (String × String)) (name : String) : Option String :=
  (fs.find? (fun kv => kv.1 == name)).map (fun kv => kv.2)

def applyEffect (fs : List (String × String)) : Effect → List (String × String)
  | .wroteArtifact name content => fsSet fs name content
  | _ => fs

def runPapers (envOf : Paper → ItemEnv) (papers : List Paper)
    (fs0 : List (String × String)) : List (String × String) :=
  papers.foldl (fun fs p => ((process_paper p (envOf p)).2).foldl applyEffect fs) fs0

/-! ### Helper lemmas about sanitization -/

theorem sanitizeChars_eq_of_differ (s t : List Char)
    (h : differOnlyIllegal s t = true) : sanitizeChars s = sanitizeChars t := by
  induction s generalizing t with
  | nil =>
      cases t with
      | nil => rfl
      | cons d t => simp [differOnlyIllegal] at h
  | cons c s ih =>
      cases t with
      | nil => simp [differOnlyIllegal] at h
      | cons d t =>
          simp only [differOnlyIllegal, Bool.and_eq_true, Bool.or_eq_true,
            beq_iff_eq] at h
          obtain ⟨h1, h2⟩ := h
          simp only [sanitizeChars, List.map_cons, List.cons.injEq]
          refine ⟨?_, ih t h2⟩
          rcases h1 with he | ⟨hc, hd⟩
          · rw [he]
          · simp [sanitizeChar, hc, hd]

theorem isIllegalChar_sanitizeChar (c : Char) :
    isIllegalChar (sanitizeChar c) = false := by
  unfold sanitizeChar
  by_cases h : isIllegalChar c
  · simp only [h, if_true]
    decide
  · simp only [h, if_false]
    exact Bool.not_eq_true _ ▸ h

theorem mem_sanitizeChars_legal (l : List Char) (c : Char)
    (hc : c ∈ sanitizeChars l) : isIllegalChar c = false := by
  obtain ⟨d, _, rfl⟩ := List.mem_map.mp hc
  exact isIllegalChar_sanitizeChar d

theorem sanitizeChars_of_legal (l : List Char)
    (h : ∀ c ∈ l, isIllegalChar c = false) : sanitizeChars l = l := by
  induction l with
  | nil => rfl
  | cons c l ih =>
      simp only [sanitizeChars, List.map_cons]
      rw [show sanitizeChar c = c from by simp [sanitizeChar, h c (List.mem_cons_self c l)]]
      exact congrArg (c :: ·) (ih fun d hd => h d (List.mem_cons_of_mem c hd))

theorem mem_of_mem_trimChars (l : List Char) (c : Char)
    (hc : c ∈ trimChars l) : c ∈ l := by
  unfold trimChars at hc
  rw [List.mem_reverse] at hc
  have h1 := List.dropWhile_subset (l := (l.dropWhile rustIsWhitespace).reverse)
    rustIsWhitespace hc
  rw [List.mem_reverse] at h1
  exact List.dropWhile_subset rustIsWhitespace h1

theorem mem_of_mem_truncateChars (l : List Char) (c : Char)
    (hc : c ∈ truncateChars l) : c ∈ l := by
  unfold truncateChars at hc
  split at hc
  · exact (List.take_sublist 200 l).subset hc
  · exact hc

theorem dropWhile_dropWhile_self (p : Char → Bool) (l : List Char) :
    (l.dropWhile p).dropWhile p = l.dropWhile p := by
  induction l with
  | nil => rfl
  | cons a l ih =>
      by_cases h : p a
      · simp [List.dropWhile_cons, h, ih]
      · simp [List.dropWhile_cons, h]

theorem trimChars_trimChars (l : List Char) :
    trimChars (trimChars l) = trimChars l := by
  obtain ⟨t, ht⟩ := List.dropWhile_suffix
    (l := (l.dropWhile rustIsWhitespace).reverse) rustIsWhitespace
  have hsplit : trimChars l ++ t.reverse = l.dropWhile rustIsWhitespace := by
    have h2 := congrArg List.reverse ht
    rw [List.reverse_append, List.reverse_reverse] at h2
    exact h2
  have hfront : (trimChars l).dropWhile rustIsWhitespace = trimChars l := by
    cases hT : trimChars l with
    | nil => rfl
    | cons x xs =>
        rw [hT] at hsplit
        have hr' : x :: (xs ++ t.reverse) = l.dropWhile rustIsWhitespace := hsplit
        have hh : (l.dropWhile rustIsWhitespace).head? = some x := by
          rw [← hr']
          rfl
        have h1 := List.head?_dropWhile_not rustIsWhitespace l
        rw [hh] at h1
        have hx : rustIsWhitespace x = false := h1
        rw [List.dropWhile_cons_of_neg (by simp [hx])]
  have houter : trimChars (trimChars l) =
      (((trimChars l).dropWhile rustIsWhitespace).reverse.dropWhile
        rustIsWhitespace).reverse := rfl
  rw [houter, hfront]
  conv_lhs => rw [show trimChars l =
    (((l.dropWhile rustIsWhitespace).reverse).dropWhile rustIsWhitespace).reverse
    from rfl]
  rw [List.reverse_reverse, dropWhile_dropWhile_self]
  rfl

/-! ### Claim C5 -/

/-- C5: the canonical key is computed by replacing every character
matched by the sanitize regex with an underscore, trimming surrounding
whitespace and truncating to 200 code points; titles that differ only in
replaced characters collapse to the same key, and a title whose
sanitized form exceeds 200 code points yields a key of exactly 200 code
points. -/
theorem c5_canonical_key (s t : String) :
    (differOnlyIllegal s.data t.data = true →
      sanitize_filename s = sanitize_filename t)
    ∧ ((trimChars (sanitizeChars s.data)).length > 200 →
        (sanitize_filename s).data.length = 200) := by
  constructor
  · intro h
    unfold sanitize_filename
    rw [sanitizeChars_eq_of_differ _ _ h]
  · intro h
    show (truncateChars (trimChars (sanitizeChars s.data))).length = 200
    unfold truncateChars
    rw [if_pos h, List.length_take]
    omega

/-- Witness for C5 at concrete titles. -/
theorem c5_canonical_key_witness :
    sanitize_filename ⟨['a', '<', 'b']⟩ = sanitize_filename ⟨['a', '*', 'b']⟩ ∧
    (sanitize_filename ⟨List.replicate 201 'a'⟩).data.length = 200 :=
  ⟨(c5_canonical_key ⟨['a', '<', 'b']⟩ ⟨['a', '*', 'b']⟩).1 (by decide),
   (c5_canonical_key ⟨List.replicate 201 'a'⟩ ⟨[]⟩).2 (by decide)⟩

/-! ### Claim C10 -/

def exLong : String := ⟨List.replicate 199 'a' ++ [' ', 'b']⟩

/-- C10 counterexample: a 201 code point title with a space in position
200 sanitizes to a 200 code point key ending in that space, because
truncation happens after trimming; sanitizing again trims the trailing
space off, so sanitization is not idempotent. -/
theorem c10_not_idempotent :
    sanitize_filename (sanitize_filename exLong) ≠ sanitize_filename exLong := by
  decide

/-- C10 as amended: sanitization is idempotent on every string whose
trimmed sanitized form fits in 200 code points (that is, whenever
truncation does not cut); and every produced key contains no
regex-replaced character and is at most 200 code points long.  When
truncation cuts right after whitespace the key keeps that trailing
whitespace and re-sanitizing shortens it. -/
theorem c10_sanitize_fixed_point (s : String) :
    ((trimChars (sanitizeChars s.data)).length ≤ 200 →
      sanitize_filename (sanitize_filename s) = sanitize_filename s)
    ∧ (∀ c ∈ (sanitize_filename s).data, isIllegalChar c = false)
    ∧ (sanitize_filename s).data.length ≤ 200 := by
  refine ⟨?_, ?_, ?_⟩
  · intro h
    have hT : sanitize_filename s = ⟨trimChars (sanitizeChars s.data)⟩ := by
      unfold sanitize_filename truncateChars
      rw [if_neg (by omega)]
    rw [hT]
    show (⟨truncateChars (trimChars (sanitizeChars
      (trimChars (sanitizeChars s.data))))⟩ : String) = _
    rw [sanitizeChars_of_legal _ (fun c hc =>
      mem_sanitizeChars_legal _ _ (mem_of_mem_trimChars _ _ hc))]
    rw [trimChars_trimChars]
    unfold truncateChars
    rw [if_neg (by omega)]
  · intro c hc
    have h1 : c ∈ trimChars (sanitizeChars s.data) :=
      mem_of_mem_truncateChars _ _ hc
    exact mem_sanitizeChars_legal _ _ (mem_of_mem_trimChars _ _ h1)
  · show (truncateChars (trimChars (sanitizeChars s.data))).length ≤ 200
    unfold truncateChars
    split
    · rw [List.length_take]
      omega
    · omega

/-- Witness for C10 as amended at a concrete title. -/
theorem c10_sanitize_fixed_point_witness :
    sanitize_filename (sanitize_filename ⟨['a', 'b', 'c']⟩) =
      sanitize_filename ⟨['a', 'b', 'c']⟩ ∧
    (sanitize_filename ⟨['a', 'b', 'c']⟩).data.length ≤ 200 :=
  ⟨(c10_sanitize_fixed_point ⟨['a', 'b', 'c']⟩).1 (by decide),
   (c10_sanitize_fixed_point ⟨['a', 'b', 'c']⟩).2.2⟩

/-! ### Helper lemmas about the retry loop -/

theorem summaryLoop_step0 (p : Paper) (env : Nat → HttpAttempt) (le : String) :
    summaryLoop p env 3 3 0 le =
      match classifyAttempt (env 0) with
      | .success c => (.ok (formatSummary p c), [], 1)
      | .terminal e => (.error e, [], 1)
      | .retry e =>
          ((summaryLoop p env 3 2 1 e).1,
            [] ++ (summaryLoop p env 3 2 1 e).2.1,
            (summaryLoop p env 3 2 1 e).2.2 + 1) := rfl

theorem summaryLoop_step1 (p : Paper) (env : Nat → HttpAttempt) (le : String) :
    summaryLoop p env 3 2 1 le =
      match classifyAttempt (env 1) with
      | .success c => (.ok (formatSummary p c), [1000], 1)
      | .terminal e => (.error e, [1000], 1)
      | .retry e =>
          ((summaryLoop p env 3 1 2 e).1,
            [1000] ++ (summaryLoop p env 3 1 2 e).2.1,
            (summaryLoop p env 3 1 2 e).2.2 + 1) := rfl

theorem summaryLoop_step2 (p : Paper) (env : Nat → HttpAttempt) (le : String) :
    summaryLoop p env 3 1 2 le =
      match classifyAttempt (env 2) with
      | .success c => (.ok (formatSummary p c), [1500], 1)
      | .terminal e => (.error e, [1500], 1)
      | .retry e => (.error (failMsg 3 e), [1500] ++ [], 0 + 1) := rfl

theorem failMsg_three (s : String) :
    failMsg 3 s = "Failed after 3 retries: " ++ s := by
  unfold failMsg
  rw [show ("Failed after " ++ toString (3 : Nat) ++ " retries: " : String) =
    "Failed after 3 retries: " from by decide]

/-! ### Claim C1 -/

def p0 : Paper := ⟨"1", "T", "u"⟩

def envParseThenOk : Nat → HttpAttempt := fun i =>
  if i == 0 then .http 200 "garbage" (.error "expected value")
  else .http 200 "good" (.ok ["S"])

/-- C1 counterexample: an attempt whose 200 response body fails to parse
is retried, not terminal — with a malformed body on the first attempt
and a good response on the second, the client makes a second attempt and
succeeds, contradicting the claim that a malformed body ends the item
with no further attempts. -/
theorem c1_parse_error_retried :
    (generate_summary p0 "text" envParseThenOk).attemptsMade = 2
    ∧ (generate_summary p0 "text" envParseThenOk).result =
        .ok (formatSummary p0 "S") := by
  constructor
  · rfl
  · rfl

/-- C1 as amended: an attempt is retried when it fails with a transport
error, a body-read error, HTTP 429, an HTTP 5xx status, or a response
body that fails to parse; any other non-success status is terminal with
the API error message, a parsed response with zero choices is terminal,
and a terminal attempt ends the loop immediately: if attempts before `i`
were all retryable and attempt `i` is not retryable, exactly `i + 1`
attempts are made. -/
theorem c1_retry_terminal_classification (p : Paper) (text e body : String)
    (sR sT sP : Nat) (env : Nat → HttpAttempt) (i : Nat) :
    classifyAttempt (.transportErr e) = .retry e
    ∧ classifyAttempt (.bodyReadErr e) = .retry e
    ∧ (∀ parsed, sR = 429 ∨ 500 ≤ sR →
        classifyAttempt (.http sR body parsed) = .retry (apiErrMsg sR body))
    ∧ (∀ parsed, sT ≠ 429 → sT < 500 → ¬(200 ≤ sT ∧ sT ≤ 299) →
        classifyAttempt (.http sT body parsed) = .terminal (apiErrMsg sT body))
    ∧ (200 ≤ sP → sP ≤ 299 →
        classifyAttempt (.http sP body (.error e)) = .retry (parseErrMsg e body))
    ∧ (200 ≤ sP → sP ≤ 299 →
        classifyAttempt (.http sP body (.ok [])) = .terminal noResponseMsg)
    ∧ ((∀ j, j < i → (classifyAttempt (env j)).isRetry = true) → i < 3 →
        (classifyAttempt (env i)).isRetry = false →
        (generate_summary p text env).attemptsMade = i + 1) := by
  have h2xxFalse : ∀ s : Nat, s ≠ 429 → s < 500 →
      (s == 429 || decide (500 ≤ s)) = false := by
    intro s h1 h2
    simp only [Bool.or_eq_false_iff, beq_eq_false_iff_ne, ne_eq,
      decide_eq_false_iff_not]
    exact ⟨h1, by omega⟩
  refine ⟨rfl, rfl, ?_, ?_, ?_, ?_, ?_⟩
  · intro parsed h
    have hb : (sR == 429 || decide (500 ≤ sR)) = true := by
      rcases h with h | h
      · subst h
        rfl
      · simp [h]
    simp only [classifyAttempt]
    rw [if_pos hb]
  · intro parsed h1 h2 h3
    have hb2 : (decide (200 ≤ sT) && decide (sT ≤ 299)) = false := by
      rcases Nat.lt_or_ge sT 200 with hlt | hge
      · have hd : decide (200 ≤ sT) = false := by
          simp only [decide_eq_false_iff_not]
          omega
        rw [hd, Bool.false_and]
      · have hd : decide (sT ≤ 299) = false := by
          simp only [decide_eq_false_iff_not]
          intro hle
          exact h3 ⟨hge, hle⟩
        rw [hd, Bool.and_false]
    simp only [classifyAttempt]
    rw [if_neg (by simp [h2xxFalse sT h1 h2]), if_pos (by rw [hb2]; rfl)]
  · intro h1 h2
    have hb : (sP == 429 || decide (500 ≤ sP)) = false :=
      h2xxFalse sP (by omega) (by omega)
    have hb2 : (decide (200 ≤ sP) && decide (sP ≤ 299)) = true := by
      simp [h1, h2]
    simp only [classifyAttempt]
    rw [if_neg (by simp [hb]), if_neg (by rw [hb2]; simp)]
  · intro h1 h2
    have hb : (sP == 429 || decide (500 ≤ sP)) = false :=
      h2xxFalse sP (by omega) (by omega)
    have hb2 : (decide (200 ≤ sP) && decide (sP ≤ 299)) = true := by
      simp [h1, h2]
    simp only [classifyAttempt]
    rw [if_neg (by simp [hb]), if_neg (by rw [hb2]; simp)]
  · intro hprev hi hlast
    show (summaryLoop p env 3 3 0 "").2.2 = i + 1
    interval_cases i
    · cases h0 : classifyAttempt (env 0) with
      | success c => simp only [summaryLoop_step0, h0]
      | terminal e0 => simp only [summaryLoop_step0, h0]
      | retry e0 =>
          rw [h0] at hlast
          simp [AttemptStep.isRetry] at hlast
    · have hr0 := hprev 0 (by omega)
      cases h0 : classifyAttempt (env 0) with
      | success c =>
          rw [h0] at hr0
          simp [AttemptStep.isRetry] at hr0
      | terminal e0 =>
          rw [h0] at hr0
          simp [AttemptStep.isRetry] at hr0
      | retry e0 =>
          simp only [summaryLoop_step0, h0]
          cases h1 : classifyAttempt (env 1) with
          | success c => simp only [summaryLoop_step1, h1]
          | terminal e1 => simp only [summaryLoop_step1, h1]
          | retry e1 =>
              rw [h1] at hlast
              simp [AttemptStep.isRetry] at hlast
    · have hr0 := hprev 0 (by omega)
      cases h0 : classifyAttempt (env 0) with
      | success c =>
          rw [h0] at hr0
          simp [AttemptStep.isRetry] at hr0
      | terminal e0 =>
          rw [h0] at hr0
          simp [AttemptStep.isRetry] at hr0
      | retry e0 =>
          have hr1 := hprev 1 (by omega)
          cases h1 : classifyAttempt (env 1) with
          | success c =>
              rw [h1] at hr1
              simp [AttemptStep.isRetry] at hr1
          | terminal e1 =>
              rw [h1] at hr1
              simp [AttemptStep.isRetry] at hr1
          | retry e1 =>
              simp only [summaryLoop_step0, h0, summaryLoop_step1, h1]
              cases h2 : classifyAttempt (env 2) with
              | success c => simp only [summaryLoop_step2, h2]
              | terminal e2 => simp only [summaryLoop_step2, h2]
              | retry e2 =>
                  rw [h2] at hlast
                  simp [AttemptStep.isRetry] at hlast

/-- Witness for C1 as amended: status 500 retries, status 404 is
terminal, a parse failure under status 200 retries, an empty choice list
under status 200 is terminal, and a loop whose first attempt is terminal
makes exactly one attempt. -/
theorem c1_classification_witness :
    classifyAttempt (.transportErr "boom") = .retry "boom"
    ∧ (classifyAttempt (.http 500 "b" (.ok [])) = .retry (apiErrMsg 500 "b"))
    ∧ (classifyAttempt (.http 404 "b" (.ok [])) = .terminal (apiErrMsg 404 "b"))
    ∧ (classifyAttempt (.http 200 "b" (.error "boom")) =
        .retry (parseErrMsg "boom" "b"))
    ∧ (classifyAttempt (.http 200 "b" (.ok [])) = .terminal noResponseMsg)
    ∧ (generate_summary p0 "t" (fun _ => .http 404 "b" (.ok []))).attemptsMade =
        0 + 1 :=
  have h := c1_retry_terminal_classification p0 "t" "boom" "b" 500 404 200
    (fun _ => .http 404 "b" (.ok [])) 0
  ⟨h.1,
   h.2.2.1 (.ok []) (Or.inr (by omega)),
   h.2.2.2.1 (.ok []) (by omega) (by omega) (by omega),
   h.2.2.2.2.1 (by omega) (by omega),
   h.2.2.2.2.2.1 (by omega) (by omega),
   h.2.2.2.2.2.2 (fun j hj => absurd hj (by omega)) (by omega) (by decide)⟩

/-! ### Claim C3 -/

/-- C3: the client makes at most 3 attempts; the sleeps performed are
exactly 500 ms times the attempt number for every attempt after the
first; and when all three attempts fail retryably the final error is
"Failed after 3 retries: " followed by the last attempt error. -/
theorem c3_retry_budget_and_backoff (p : Paper) (text : String)
    (env : Nat → HttpAttempt) (e0 e1 e2 : String) :
    (generate_summary p text env).attemptsMade ≤ 3
    ∧ (generate_summary p text env).sleeps =
        ((List.range (generate_summary p text env).attemptsMade).drop 1).map
          (fun i => 500 * (i + 1))
    ∧ (classifyAttempt (env 0) = .retry e0 →
        classifyAttempt (env 1) = .retry e1 →
        classifyAttempt (env 2) = .retry e2 →
        (generate_summary p text env).result =
          .error ("Failed after 3 retries: " ++ e2)
        ∧ (generate_summary p text env).attemptsMade = 3) := by
  show (summaryLoop p env 3 3 0 "").2.2 ≤ 3
    ∧ (summaryLoop p env 3 3 0 "").2.1 =
        ((List.range (summaryLoop p env 3 3 0 "").2.2).drop 1).map
          (fun i => 500 * (i + 1))
    ∧ (classifyAttempt (env 0) = .retry e0 →
        classifyAttempt (env 1) = .retry e1 →
        classifyAttempt (env 2) = .retry e2 →
        (summaryLoop p env 3 3 0 "").1 =
          .error ("Failed after 3 retries: " ++ e2)
        ∧ (summaryLoop p env 3 3 0 "").2.2 = 3)
  cases h0 : classifyAttempt (env 0) with
  | success c =>
      simp only [summaryLoop_step0, h0]
      refine ⟨by decide, by decide, ?_⟩
      intro h0' _ _
      simp at h0'
  | terminal e =>
      simp only [summaryLoop_step0, h0]
      refine ⟨by decide, by decide, ?_⟩
      intro h0' _ _
      simp at h0'
  | retry e =>
      simp only [summaryLoop_step0, h0]
      cases h1 : classifyAttempt (env 1) with
      | success c =>
          simp only [summaryLoop_step1, h1]
          refine ⟨by decide, by decide, ?_⟩
          intro _ h1' _
          simp at h1'
      | terminal e' =>
          simp only [summaryLoop_step1, h1]
          refine ⟨by decide, by decide, ?_⟩
          intro _ h1' _
          simp at h1'
      | retry e' =>
          simp only [summaryLoop_step1, h1]
          cases h2 : classifyAttempt (env 2) with
          | success c =>
              simp only [summaryLoop_step2, h2]
              refine ⟨by decide, by decide, ?_⟩
              intro _ _ h2'
              simp at h2'
          | terminal e'' =>
              simp only [summaryLoop_step2, h2]
              refine ⟨by decide, by decide, ?_⟩
              intro _ _ h2'
              simp at h2'
          | retry e'' =>
              simp only [summaryLoop_step2, h2]
              refine ⟨by decide, by decide, ?_⟩
              intro _ _ h2'
              injection h2' with he
              subst he
              exact ⟨congrArg Except.error (failMsg_three _), trivial⟩

def env500 : Nat → HttpAttempt := fun _ => .http 500 "oops" (.ok [])

/-- Witness for C3: an endpoint answering 500 on every attempt exhausts
all 3 attempts, sleeps 1000 ms then 1500 ms, and reports the final
aggregate error. -/
theorem c3_retry_budget_witness :
    (generate_summary p0 "text" env500).attemptsMade ≤ 3
    ∧ (generate_summary p0 "text" env500).sleeps =
        ((List.range (generate_summary p0 "text" env500).attemptsMade).drop 1).map
          (fun i => 500 * (i + 1))
    ∧ ((generate_summary p0 "text" env500).result =
        .error ("Failed after 3 retries: " ++ apiErrMsg 500 "oops")
      ∧ (generate_summary p0 "text" env500).attemptsMade = 3) :=
  have h := c3_retry_budget_and_backoff p0 "text" env500
    (apiErrMsg 500 "oops") (apiErrMsg 500 "oops") (apiErrMsg 500 "oops")
  ⟨h.1, h.2.1, h.2.2 (by decide) (by decide) (by decide)⟩

/-! ### Helper lemmas about the orchestrator -/

theorem dl_ok_of (env : ItemEnv) (hdl : env.cached = true ∨ env.download = .ok ()) :
    ∃ eff0, (eff0 = [] ∨ eff0 = [Effect.downloaded]) ∧
      (if env.cached then (Except.ok [] : Except String (List Effect))
       else
         match env.download with
         | .ok _ => .ok [Effect.downloaded]
         | .error e => .error e) = .ok eff0 := by
  by_cases hc : env.cached
  · exact ⟨[], Or.inl rfl, by rw [if_pos hc]⟩
  · rcases hdl with hc' | hd
    · exact absurd hc' hc
    · exact ⟨[Effect.downloaded], Or.inr rfl, by rw [if_neg hc, hd]⟩

theorem process_paper_after_download (paper : Paper) (env : ItemEnv)
    (eff0 : List Effect)
    (h : (if env.cached then (Except.ok [] : Except String (List Effect))
          else
            match env.download with
            | .ok _ => .ok [Effect.downloaded]
            | .error e => .error e) = .ok eff0) :
    process_paper paper env =
      if (match env.sizeOf with
          | some n => decide (n < 1000)
          | none => false) then
        (ProcessingOutcome.corruptDownload, eff0 ++ [Effect.removedPdf])
      else
        match extract_text_silent env.extraction with
        | .error e => (.extractionFailed e, eff0 ++ [Effect.extractCalled])
        | .ok text =>
            if trimChars text.data = [] then
              (.emptyText, eff0 ++ [Effect.extractCalled])
            else
              match (generate_summary paper text env.attempts).result with
              | .ok summary =>
                  (.completed,
                    eff0 ++ [Effect.extractCalled] ++
                      [Effect.summarizeCalled,
                        Effect.wroteArtifact (artifactName paper) summary])
              | .error e =>
                  (.summarizationFailed e,
                    eff0 ++ [Effect.extractCalled] ++ [Effect.summarizeCalled]) := by
  simp only [process_paper, h]

theorem gate_false_of (env : ItemEnv)
    (hs : ∀ n, env.sizeOf = some n → 1000 ≤ n) :
    (match env.sizeOf with
     | some n => decide (n < 1000)
     | none => false) = false := by
  cases h : env.sizeOf with
  | none => rfl
  | some n =>
      simp only [decide_eq_false_iff_not]
      exact Nat.not_lt.mpr (hs n h)

/-! ### Claim C2 -/

/-- C2: the sandbox maps each behavior of the extraction call to exactly
one outcome — text returned in time is passed through, an in-time panic
is contained as the panicked error, completion after the deadline or no
completion at all yields the timeout error, the deadline is 120 seconds,
and text that trims to empty is a terminal empty-text outcome for the
item, after which summarization is never invoked and no artifact is
written. -/
theorem c2_extraction_outcomes (t e : String) (r : CallResult)
    (paper : Paper) (env : ItemEnv) :
    extract_text_silent (.within (.ok t)) = .ok t
    ∧ extract_text_silent (.within (.err e)) = .error e
    ∧ extract_text_silent (.within .panicked) = .error "PDF extraction panicked"
    ∧ extract_text_silent (.late r) = .error "PDF extraction timed out"
    ∧ extract_text_silent .never = .error "PDF extraction timed out"
    ∧ extractTimeoutSecs = 120
    ∧ ((env.cached = true ∨ env.download = .ok ()) →
        (∀ n, env.sizeOf = some n → 1000 ≤ n) →
        env.extraction = .within (.ok t) →
        trimChars t.data = [] →
        (process_paper paper env).1 = .emptyText
        ∧ Effect.summarizeCalled ∉ (process_paper paper env).2
        ∧ ∀ name c, Effect.wroteArtifact name c ∉ (process_paper paper env).2) := by
  refine ⟨rfl, rfl, rfl, ?_, rfl, rfl, ?_⟩
  · cases r <;> rfl
  · intro hdl hgate hex htrim
    obtain ⟨eff0, heff0, h⟩ := dl_ok_of env hdl
    have hp := process_paper_after_download paper env eff0 h
    rw [gate_false_of env hgate, hex] at hp
    simp only [Bool.false_eq_true, if_false, extract_text_silent] at hp
    rw [if_pos htrim] at hp
    rcases heff0 with rfl | rfl <;> rw [hp] <;>
      exact ⟨rfl, by decide, fun name c => by simp⟩

/-- Witness for C2 at a concrete item environment whose extraction
returns whitespace-only text in time. -/
theorem c2_extraction_outcomes_witness :
    extract_text_silent (.within (.ok " ")) = .ok " "
    ∧ extract_text_silent (.within .panicked) = .error "PDF extraction panicked"
    ∧ extract_text_silent .never = .error "PDF extraction timed out"
    ∧ extractTimeoutSecs = 120
    ∧ (process_paper ⟨"1", "T", "u"⟩
        ⟨true, .ok (), some 2000, .within (.ok " "),
          fun _ => .http 200 "b" (.ok ["S"])⟩).1 = .emptyText :=
  have h := c2_extraction_outcomes " " "x" (.ok "y") ⟨"1", "T", "u"⟩
    ⟨true, .ok (), some 2000, .within (.ok " "),
      fun _ => .http 200 "b" (.ok ["S"])⟩
  ⟨h.1, h.2.2.1, h.2.2.2.2.1, h.2.2.2.2.2.1,
   (h.2.2.2.2.2.2 (Or.inl rfl)
     (fun n hn => by cases hn; decide) rfl (by decide)).1⟩

/-! ### Claim C6 -/

/-- C6: once the file is present, a reported length under 1000 bytes
deletes the file, ends the item as a corrupt download and never invokes
extraction; a length of at least 1000 proceeds to extraction. -/
theorem c6_size_gate (paper : Paper) (env : ItemEnv) (n : Nat)
    (hdl : env.cached = true ∨ env.download = .ok ())
    (hs : env.sizeOf = some n) :
    (n < 1000 →
      (process_paper paper env).1 = .corruptDownload
      ∧ Effect.removedPdf ∈ (process_paper paper env).2
      ∧ Effect.extractCalled ∉ (process_paper paper env).2)
    ∧ (1000 ≤ n → Effect.extractCalled ∈ (process_paper paper env).2) := by
  obtain ⟨eff0, heff0, h⟩ := dl_ok_of env hdl
  have hp := process_paper_after_download paper env eff0 h
  rw [hs] at hp
  constructor
  · intro hn
    rw [show (match some n with
        | some n => decide (n < 1000)
        | none => false) = true from by simpa using hn] at hp
    rw [if_pos rfl] at hp
    rcases heff0 with rfl | rfl <;> rw [hp] <;> exact ⟨rfl, by decide, by decide⟩
  · intro hn
    rw [show (match some n with
        | some n => decide (n < 1000)
        | none => false) = false from by simpa using Nat.not_lt.mpr hn] at hp
    rw [if_neg (by simp)] at hp
    cases hE : extract_text_silent env.extraction with
    | error e =>
        rw [hE] at hp
        rcases heff0 with rfl | rfl <;> rw [hp] <;> simp
    | ok text =>
        rw [hE] at hp
        dsimp only at hp
        by_cases htr : trimChars text.data = []
        · rw [if_pos htr] at hp
          rcases heff0 with rfl | rfl <;> rw [hp] <;> simp
        · rw [if_neg htr] at hp
          cases hres : (generate_summary paper text env.attempts).result with
          | ok summary =>
              rw [hres] at hp
              rcases heff0 with rfl | rfl <;> rw [hp] <;> simp
          | error e =>
              rw [hres] at hp
              rcases heff0 with rfl | rfl <;> rw [hp] <;> simp

/-- Witness for C6: a 999 byte file is deleted and never extracted, a
1000 byte file reaches extraction. -/
theorem c6_size_gate_witness :
    ((process_paper ⟨"1", "T", "u"⟩
        ⟨true, .ok (), some 999, .within (.ok "x"),
          fun _ => .http 200 "b" (.ok ["S"])⟩).1 = .corruptDownload
      ∧ Effect.removedPdf ∈ (process_paper ⟨"1", "T", "u"⟩
          ⟨true, .ok (), some 999, .within (.ok "x"),
            fun _ => .http 200 "b" (.ok ["S"])⟩).2
      ∧ Effect.extractCalled ∉ (process_paper ⟨"1", "T", "u"⟩
          ⟨true, .ok (), some 999, .within (.ok "x"),
            fun _ => .http 200 "b" (.ok ["S"])⟩).2)
    ∧ Effect.extractCalled ∈ (process_paper ⟨"1", "T", "u"⟩
        ⟨true, .ok (), some 1000, .within (.ok "x"),
          fun _ => .http 200 "b" (.ok ["S"])⟩).2 :=
  ⟨(c6_size_gate ⟨"1", "T", "u"⟩
      ⟨true, .ok (), some 999, .within (.ok "x"),
        fun _ => .http 200 "b" (.ok ["S"])⟩ 999 (Or.inl rfl) rfl).1 (by decide),
   (c6_size_gate ⟨"1", "T", "u"⟩
      ⟨true, .ok (), some 1000, .within (.ok "x"),
        fun _ => .http 200 "b" (.ok ["S"])⟩ 1000 (Or.inl rfl) rfl).2 (by decide)⟩

/-! ### Claim C9 -/

/-- C9: the prompt submitted on every attempt embeds the input text
truncated to its first 50000 code points, the truncation is applied when
the request is assembled (before any attempt), and input of at most
50000 code points is embedded verbatim. -/
theorem c9_prompt_truncation (p : Paper) (text : String)
    (env : Nat → HttpAttempt) :
    (generate_summary p text env).request.content =
      promptPrefix p ++ (⟨text.data.take 50000⟩ : String) ++ promptSuffix
    ∧ (truncate50k text).data = text.data.take 50000
    ∧ (truncate50k text).data.length ≤ 50000
    ∧ (text.data.length ≤ 50000 → truncate50k text = text) := by
  have hdata : (truncate50k text).data = text.data.take 50000 := by
    unfold truncate50k
    split
    · rfl
    · next h => rw [List.take_of_length_le (by omega)]
  refine ⟨?_, hdata, ?_, ?_⟩
  · show buildPrompt p (truncate50k text) = _
    unfold buildPrompt
    rw [String.ext hdata]
  · rw [hdata, List.length_take]
    omega
  · intro h
    unfold truncate50k
    rw [if_neg (by omega)]

/-- Witness for C9 at a concrete paper and text. -/
theorem c9_prompt_truncation_witness :
    (generate_summary ⟨"1", "T", "u"⟩ "abc"
        (fun _ => HttpAttempt.http 200 "b" (.ok ["S"]))).request.content =
      promptPrefix ⟨"1", "T", "u"⟩ ++ (⟨("abc" : String).data.take 50000⟩ : String) ++
        promptSuffix
    ∧ truncate50k "abc" = "abc" :=
  have h := c9_prompt_truncation ⟨"1", "T", "u"⟩ "abc"
    (fun _ => HttpAttempt.http 200 "b" (.ok ["S"]))
  ⟨h.1, h.2.2.2 (by decide)⟩

/-! ### Claim C4 -/

/-- C4 counterexample: when the extraction call never completes, the
sandbox returns the timeout outcome while the abandoned worker thread
has redirected the process stdout and stderr but has not restored them,
so the suppression does outlive the call on the timeout path. -/
theorem c4_timeout_leaves_streams_redirected :
    WEvent.restore ∉ workerEventsAtReturn .never
    ∧ WEvent.redirect ∈ workerEventsAtReturn .never
    ∧ extract_text_silent .never = .error "PDF extraction timed out" := by
  decide

/-- C4 as amended: the streams are redirected for the duration of the
call and restored before the result is delivered whenever the call
completes within the deadline — on the success, extraction-error and
panic paths alike; but on the timeout path the sandbox returns with the
streams still redirected: the abandoned worker restores them only if the
call eventually completes, and never when the call hangs forever. -/
theorem c4_stream_restoration (b : ExtractBehavior) (r : CallResult) :
    (WEvent.restore ∈ workerEventsAtReturn b ↔ ∃ r0, b = .within r0)
    ∧ (WEvent.restore ∈ workerEventualTrace b ↔ b ≠ .never)
    ∧ workerEventsAtReturn (.within r) = [.redirect, .callEnd, .restore, .send]
    ∧ workerEventsAtReturn (.late r) = [.redirect]
    ∧ workerEventsAtReturn .never = [.redirect] := by
  refine ⟨?_, ?_, rfl, rfl, rfl⟩
  · constructor
    · intro h
      cases b with
      | within r0 => exact ⟨r0, rfl⟩
      | late r0 => simp [workerEventsAtReturn] at h
      | never => simp [workerEventsAtReturn] at h
    · rintro ⟨r0, rfl⟩
      simp [workerEventsAtReturn]
  · constructor
    · intro h hb
      subst hb
      simp [workerEventualTrace] at h
    · intro h
      cases b with
      | within r0 => simp [workerEventualTrace]
      | late r0 => simp [workerEventualTrace]
      | never => exact absurd rfl h

/-- Witness for C4 as amended at concrete behaviors. -/
theorem c4_stream_restoration_witness :
    WEvent.restore ∈ workerEventsAtReturn (.within (.ok "x"))
    ∧ WEvent.restore ∉ workerEventsAtReturn (.late (.ok "x")) :=
  ⟨(c4_stream_restoration (.within (.ok "x")) (.ok "x")).1.mpr ⟨_, rfl⟩,
   fun h => by
     rcases (c4_stream_restoration (.late (.ok "x")) (.ok "x")).1.mp h with ⟨r0, hr⟩
     cases hr⟩

/-! ### Claim C7 -/

theorem trimEndLoop_of_not_suffix (k : List Char)
    (h : sfxSM.data.isSuffixOf k = false) :
    ∀ fuel, trimEndLoop fuel k = k := by
  intro fuel
  cases fuel with
  | zero => rfl
  | succ fuel => simp [trimEndLoop, h]

theorem trimEndLoop_append_one (k : List Char)
    (h : sfxSM.data.isSuffixOf k = false) (fuel : Nat) :
    trimEndLoop (fuel + 1) (k ++ sfxSM.data) = k := by
  have hsuf : sfxSM.data.isSuffixOf (k ++ sfxSM.data) = true := by
    rw [List.isSuffixOf_iff_suffix]
    exact List.suffix_append k sfxSM.data
  have hlen : (k ++ sfxSM.data).length = k.length + 11 := by
    rw [List.length_append]
    rfl
  simp only [trimEndLoop, hsuf, if_true]
  rw [hlen, show sfxSM.data.length = 11 from rfl, Nat.add_sub_cancel,
    List.take_left' rfl]
  exact trimEndLoop_of_not_suffix k h fuel

theorem trimEndMatchesSM_strip (k : List Char)
    (h : sfxSM.data.isSuffixOf k = false) :
    trimEndMatchesSM (k ++ sfxSM.data) = k := by
  unfold trimEndMatchesSM
  have hlen : (k ++ sfxSM.data).length = k.length + 11 := by
    rw [List.length_append]
    rfl
  rw [hlen, show k.length + 11 = (k.length + 10) + 1 by omega]
  exact trimEndLoop_append_one k h (k.length + 10)

/-- C7 counterexample: a completed item whose canonical key itself ends
in "-summary.md" is not excluded by a second run — the filter strips the
suffix repeatedly, computes a different key, and the item is processed
again, so the second run does not process zero items. -/
theorem c7_second_run_reprocesses_item :
    artifactName ⟨"1", "x-summary.md", "u"⟩ = "x-summary.md-summary.md"
    ∧ papersToProcess (get_existing_summaries ["x-summary.md-summary.md"])
        [⟨"1", "x-summary.md", "u"⟩] = [⟨"1", "x-summary.md", "u"⟩] := by
  decide

/-- C7 as amended: a WorkItem is excluded iff its canonical key is among
the names obtained by repeatedly stripping the "-summary.md" suffix from
the artifact directory entries; and when no processed title sanitizes to
a key that itself ends in "-summary.md", a second run over an unchanged
list whose first run completed every item processes zero items. -/
theorem c7_idempotency_filter :
    (∀ (existing : List String) (papers : List Paper) (p : Paper),
      p ∈ papers →
      (p ∉ papersToProcess existing papers ↔
        sanitize_filename p.title ∈ existing))
    ∧ (∀ papers : List Paper,
        (∀ p ∈ papers,
          sfxSM.data.isSuffixOf (sanitize_filename p.title).data = false) →
        papersToProcess
          (get_existing_summaries
            (papers.map (fun p => sanitize_filename p.title ++ sfxSM)))
          papers = []) := by
  constructor
  · intro existing papers p hp
    unfold papersToProcess
    simp only [List.mem_filter, hp, true_and, Bool.not_eq_true',
      Bool.not_eq_false]
    exact ⟨fun h => List.elem_iff.mp h, fun h => List.elem_iff.mpr h⟩
  · intro papers hp
    unfold papersToProcess
    rw [List.filter_eq_nil_iff]
    intro p hpmem
    simp only [Bool.not_eq_true', Bool.not_eq_false]
    have hmem : sanitize_filename p.title ∈
        get_existing_summaries
          (papers.map (fun q => sanitize_filename q.title ++ sfxSM)) := by
      unfold get_existing_summaries
      refine List.mem_map.mpr ⟨sanitize_filename p.title ++ sfxSM, ?_, ?_⟩
      · refine List.mem_filter.mpr ⟨List.mem_map.mpr ⟨p, hpmem, rfl⟩, ?_⟩
        rw [String.data_append, List.isSuffixOf_iff_suffix]
        exact List.suffix_append _ _
      · rw [String.data_append, trimEndMatchesSM_strip _ (hp p hpmem)]
    simpa [List.elem_iff] using hmem

/-- Witness for C7 as amended at concrete lists. -/
theorem c7_idempotency_filter_witness :
    ((⟨"1", "t", "u"⟩ : Paper) ∉ papersToProcess ["t"] [⟨"1", "t", "u"⟩] ↔
      sanitize_filename "t" ∈ ["t"])
    ∧ papersToProcess
        (get_existing_summaries
          (([⟨"1", "t", "u"⟩] : List Paper).map
            (fun p => sanitize_filename p.title ++ sfxSM)))
        [⟨"1", "t", "u"⟩] = [] :=
  have h := c7_idempotency_filter
  ⟨h.1 ["t"] [⟨"1", "t", "u"⟩] ⟨"1", "t", "u"⟩ (by decide),
   h.2 [⟨"1", "t", "u"⟩] (fun p hp => by
     cases hp with
     | head => decide
     | tail _ hq => cases hq)⟩

/-! ### Claim C8 -/

def envOK : ItemEnv :=
  ⟨true, .ok (), some 2000, .within (.ok "body text"),
    fun _ => .http 200 "b" (.ok ["S"])⟩

def pDupA : Paper := ⟨"1", "T", "u1"⟩

def pDupB : Paper := ⟨"2", "T", "u2"⟩

/-- C8 counterexample: two items with the same title pass the startup
filter together, the second one also writes its artifact — the write is
not skipped — and after both complete the shared artifact file holds the
second item content, so the first item artifact was clobbered. -/
theorem c8_duplicate_write_not_skipped :
    papersToProcess [] [pDupA, pDupB] = [pDupA, pDupB]
    ∧ artifactName pDupB = artifactName pDupA
    ∧ Effect.wroteArtifact (artifactName pDupA) (formatSummary pDupB "S") ∈
        (process_paper pDupB envOK).2
    ∧ fsGet (runPapers (fun _ => envOK) [pDupA, pDupB] []) (artifactName pDupA) =
        some (formatSummary pDupB "S")
    ∧ formatSummary pDupB "S" ≠ formatSummary pDupA "S" := by
  decide

theorem fsGet_fsSet (fs : List (String × String)) (name content : String) :
    fsGet (fsSet fs name content) name = some content := by
  induction fs with
  | nil => simp [fsSet, fsGet]
  | cons kv fs ih =>
      by_cases h : kv.1 == name
      · have hstep : fsGet (fsSet (kv :: fs) name content) name =
            fsGet (fsSet fs name content) name := by
          unfold fsSet
          rw [List.filter_cons]
          simp only [bne, h, Bool.not_true, Bool.false_eq_true, if_false]
        rw [hstep]
        exact ih
      · have hb : (kv.1 != name) = true := by
          simp only [bne]
          simp [h]
        have hstep : fsGet (fsSet (kv :: fs) name content) name =
            fsGet (fsSet fs name content) name := by
          unfold fsSet fsGet
          rw [List.filter_cons, hb, if_pos rfl]
          simp [h]
        rw [hstep]
        exact ih

/-- C8 as amended: canonical keys are not deduplicated inside a run —
every item that reaches a successful summary writes to its artifact path
unconditionally, and a write to an existing path replaces the content,
so with duplicate keys the last completed write wins instead of the
second write being skipped. -/
theorem c8_unconditional_write_last_wins (paper : Paper) (env : ItemEnv)
    (fs : List (String × String)) (name content : String) :
    ((process_paper paper env).1 = .completed →
      ∃ s, Effect.wroteArtifact (artifactName paper) s ∈
        (process_paper paper env).2)
    ∧ fsGet (fsSet fs name content) name = some content := by
  refine ⟨?_, fsGet_fsSet fs name content⟩
  intro hc
  by_cases hdl : env.cached = true ∨ env.download = Except.ok ()
  · obtain ⟨eff0, heff0, h⟩ := dl_ok_of env hdl
    have hp := process_paper_after_download paper env eff0 h
    rw [hp] at hc ⊢
    by_cases hg : (match env.sizeOf with
        | some n => decide (n < 1000)
        | none => false) = true
    · rw [if_pos hg] at hc
      simp at hc
    · rw [if_neg hg] at hc ⊢
      cases hE : extract_text_silent env.extraction with
      | error e =>
          rw [hE] at hc
          simp at hc
      | ok text =>
          rw [hE] at hc
          dsimp only at hc ⊢
          by_cases htr : trimChars text.data = []
          · rw [if_pos htr] at hc
            simp at hc
          · rw [if_neg htr] at hc ⊢
            cases hres : (generate_summary paper text env.attempts).result with
            | ok summary =>
                rw [hres] at hc
                exact ⟨summary, by simp⟩
            | error e =>
                rw [hres] at hc
                simp at hc
  · have h1 : ¬ env.cached = true := fun hx => hdl (Or.inl hx)
    have h2 : ¬ env.download = Except.ok () := fun hx => hdl (Or.inr hx)
    have hcf : env.cached = false := by
      revert h1
      cases env.cached <;> simp
    cases hdown : env.download with
    | ok u =>
        cases u
        exact absurd hdown h2
    | error e =>
        have hpp : process_paper paper env =
            (ProcessingOutcome.downloadFailed e, []) := by
          simp only [process_paper, hcf, Bool.false_eq_true, if_false, hdown]
        rw [hpp] at hc
        simp at hc

/-- Witness for C8 as amended: a fully successful item reaches the
completed outcome and its artifact write is present, and a write to an
occupied path replaces the stored content. -/
theorem c8_write_witness :
    (∃ s, Effect.wroteArtifact (artifactName p0) s ∈ (process_paper p0 envOK).2)
    ∧ fsGet (fsSet [("n", "old")] "n" "c") "n" = some "c" :=
  have h := c8_unconditional_write_last_wins p0 envOK [("n", "old")] "n" "c"
  ⟨h.1 (by decide), h.2⟩
